import Mathlib

/-
Verification development for the batch execution and result-aggregation
engine of the modeling-redundancy repository.

Shallow embedding of:
  * src/gram/execution/batch.py  (class Batch)
  * src/gram/sweep/sweep.py      (class Sweep: parse_simulation, aggregate)
  * src/gram/sweep/run.py        (CLI run script)

Filesystem paths are modelled as lists of path components (os.path.join
appends components; os.path.relpath strips a directory part).  Python
exceptions are modelled by an explicit error type carried in Except.
Metric payloads (floats in the source) are opaque scalar values; only
their structure (scalar vs per-threshold vector vs None) matters to the
claims, so the carrier is Int.
-/

deriving instance DecidableEq for Except

namespace GramSpec

/-- Python exception kinds raised by the embedded code. -/
inductive PyError where
  | keyError
  | indexError
  | fileNotFoundError
  | unsupportedOperation
  | nameError
  | typeError
  | valueError
  deriving DecidableEq, Repr

/-- First-match association-list lookup; Python dictionaries have unique
keys, so first-match lookup coincides with dict lookup. -/
def lookupBy {κ α : Type} [DecidableEq κ] : List (κ × α) → κ → Option α
  | [], _ => none
  | (k, v) :: rest, key => if key = k then some v else lookupBy rest key

/-- Sequential effectful map over a list: Python list comprehensions and
loops evaluate elements left to right and abort at the first exception. -/
def mapE {α β : Type} (f : α → Except PyError β) : List α → Except PyError (List β)
  | [] => .ok []
  | a :: l =>
    match f a with
    | .error e => .error e
    | .ok b =>
      match mapE f l with
      | .error e => .error e
      | .ok bs => .ok (b :: bs)

/-- Sequential effectful fold, aborting at the first exception. -/
def foldE {σ α : Type} (f : σ → α → Except PyError σ) (init : σ) : List α → Except PyError σ
  | [] => .ok init
  | a :: l =>
    match f init a with
    | .error e => .error e
    | .ok st => foldE f st l

/-- os.path.join of two component lists. -/
def pyJoin (a b : List String) : List String := a ++ b

/-- os.path.relpath restricted to the case used by the source: the path
lies underneath the base directory, in which case the base components are
stripped. -/
def pyRelpath (p base : List String) : List String :=
  if p.take base.length = base then p.drop base.length else p

/-- Resolution performed by open(): an absolute path (leading empty
component, i.e. a leading slash) is used as is, a relative path is
resolved against the current working directory. -/
def pyResolve (cwd p : List String) : List String :=
  if p.head? = some "" then p else cwd ++ p

/-- Rendering of a component path back to the string written into text
files by the source. -/
def renderPath (p : List String) : String := String.intercalate "/" p

/-- One sampled parameter set (an ordered vector of numbers; the numeric
payload is opaque to the batch engine). -/
abbrev ParamSet : Type := List Int

/-- A metric value recorded by Sweep.parse_simulation: either a scalar or
a per-threshold vector. -/
inductive MetricValue where
  | scalar (x : Int)
  | vec (xs : List Int)
  deriving DecidableEq, Repr

/-- A comparison object attached to one environmental condition
(collaborator interface, spec section 6): a simple comparison carries a
reached flag and six scalar metrics; a MultiComparison carries a
per-threshold vector of reached flags and six per-threshold metric
vectors. -/
inductive Comparison where
  | simple (reached : Bool)
      (above below err above_threshold below_threshold threshold_err : Int)
  | multi (reached : List Bool)
      (above below err above_threshold below_threshold threshold_err : List Int)
  deriving DecidableEq, Repr

/-- Whether a comparison object reached a valid comparison state: for a
MultiComparison the source tests `True in comparison.reached_comparison`,
for a simple comparison it tests the boolean directly. -/
def Comparison.reached : Comparison → Bool
  | .multi r _ _ _ _ _ _ => r.contains true
  | .simple r _ _ _ _ _ _ => r

/-- The part of a ConditionSimulation the aggregation engine reads: its
comparisons attribute, either None or a dict of condition names to
Comparison objects (environment.py sets `self.comparisons = None` at
construction and compare() replaces it with an OrderedDict). -/
structure ConditionSimulation where
  comparisons : Option (List (String × Comparison))
  deriving DecidableEq, Repr

/-- Result of Sweep.parse_simulation: the Python literal `False` used as
a failure sentinel, or the dict of (condition, metric) keyed entries. -/
inductive ParseResult where
  | falseSentinel
  | record (entries : List ((String × String) × Option MetricValue))
  deriving DecidableEq, Repr

/-- The row a parse result contributes to the results table. -/
def ParseResult.entriesOf : ParseResult → List ((String × String) × Option MetricValue)
  | .falseSentinel => []
  | .record es => es

/-- The six metric names recorded per condition, in the order the source
inserts them (sweep.py lines 118-146). -/
def metricNames : List String :=
  ["above", "below", "error", "above_threshold", "below_threshold", "threshold_error"]

/-- The six (condition, metric) keys contributed by one condition. -/
def sixKeys (c : String) : List (String × String) := metricNames.map (fun m => (c, m))

/-- Entries recorded for a condition whose comparison failed: all six
metrics are the missing-value marker None (sweep.py lines 139-146). -/
def failEntries (c : String) : List ((String × String) × Option MetricValue) :=
  metricNames.map (fun m => ((c, m), none))

/-- Entries recorded for a condition with six concrete metric values. -/
def sixRecord (c : String) (a b e a2 b2 e2 : MetricValue) :
    List ((String × String) × Option MetricValue) :=
  [((c, "above"), some a), ((c, "below"), some b), ((c, "error"), some e),
   ((c, "above_threshold"), some a2), ((c, "below_threshold"), some b2),
   ((c, "threshold_error"), some e2)]

/-- Python list subscription xs[i] with negative-index wrapping; raises
IndexError when out of range. -/
def pyGet (xs : List Int) (i : Int) : Except PyError Int :=
  if 0 ≤ i then
    if h : i.toNat < xs.length then .ok (xs.get ⟨i.toNat, h⟩) else .error .indexError
  else
    let j : Int := (xs.length : Int) + i
    if 0 ≤ j then
      if h : j.toNat < xs.length then .ok (xs.get ⟨j.toNat, h⟩) else .error .indexError
    else .error .indexError

/-- Entries contributed by one condition's comparison object
(sweep.py lines 112-146): a MultiComparison that reached comparison has
each of its six per-threshold metric vectors subscripted at `index`; a
simple comparison that reached comparison contributes its six scalar
metrics; otherwise all six metrics are set to None. -/
def parseOne (index : Int) (c : String) : Comparison →
    Except PyError (List ((String × String) × Option MetricValue))
  | .multi reached ab be er a2 b2 e2 =>
    if reached.contains true then
      match pyGet ab index with
      | .error e => .error e
      | .ok va =>
        match pyGet be index with
        | .error e => .error e
        | .ok vb =>
          match pyGet er index with
          | .error e => .error e
          | .ok ve =>
            match pyGet a2 index with
            | .error e => .error e
            | .ok v2 =>
              match pyGet b2 index with
              | .error e => .error e
              | .ok v3 =>
                match pyGet e2 index with
                | .error e => .error e
                | .ok v4 =>
                  .ok (sixRecord c (.scalar va) (.scalar vb) (.scalar ve)
                        (.scalar v2) (.scalar v3) (.scalar v4))
    else .ok (failEntries c)
  | .simple reached a b e a2 b2 e2 =>
    if reached then
      .ok (sixRecord c (.scalar a) (.scalar b) (.scalar e)
            (.scalar a2) (.scalar b2) (.scalar e2))
    else .ok (failEntries c)

/-- Sweep.parse_simulation (sweep.py lines 105-148): returns the False
sentinel when the simulation has no comparisons attribute, otherwise the
dict of per-condition entries.  The default subscription index is -3. -/
def Sweep.parse_simulation (simulation : ConditionSimulation) (index : Int := -3) :
    Except PyError ParseResult :=
  match simulation.comparisons with
  | none => .ok .falseSentinel
  | some comps =>
    match mapE (fun p => parseOne index p.1 p.2) comps with
    | .error e => .error e
    | .ok ls => .ok (.record ls.flatten)

/-- On-disk serialized simulations, keyed by resolved path. -/
structure FileSystem where
  sims : List (List String × ConditionSimulation)
  deriving DecidableEq, Repr

/-- ConditionSimulation.load: reads the serialized simulation at a
resolved path; a missing file raises FileNotFoundError. -/
def FileSystem.loadSim (fs : FileSystem) (p : List String) : Except PyError ConditionSimulation :=
  match lookupBy fs.sims p with
  | some s => .ok s
  | none => .error .fileNotFoundError

/-- The Batch object state relevant to the claims: its path and the
simulation_paths dict (batch.py attributes). -/
structure Batch where
  path : List String
  simulation_paths : List (Int × List String)
  deriving DecidableEq, Repr

/-- The simulation-path recording loop plus serialization part of
Batch.build (batch.py lines 257-265): for each index i in ascending
order, the relative path relpath(join(path, 'simulations', str(i)), path)
is inserted into the simulation_paths dict; the object is then pickled.
The subsequent path-file step is embedded separately as
Batch.build_path_files.  The returned Batch is the pickled object. -/
def Batch.build (params : List ParamSet) (path : List String) : Batch :=
  { path := path
  , simulation_paths :=
      (List.range params.length).foldl
        (fun acc (i : Nat) =>
          acc ++ [((i : Int), pyRelpath (pyJoin (pyJoin path ["simulations"]) [toString i]) path)])
        [] }

/-- Batch.load (batch.py lines 67-73): unpickles the batch object and
reattaches the path used for loading. -/
def Batch.load (pickled : Batch) (path : List String) : Batch :=
  { pickled with path := path }

/-- Batch.load_simulation (batch.py lines 305-319): subscripts the
simulation_paths dict (KeyError on a missing key), joins the relative
path onto the batch path and loads the simulation. -/
def Batch.load_simulation (fs : FileSystem) (cwd : List String) (b : Batch) (index : Int) :
    Except PyError ConditionSimulation :=
  match lookupBy b.simulation_paths index with
  | none => .error .keyError
  | some rel => fs.loadSim (pyResolve cwd (pyJoin b.path rel))

/-- Batch.apply (batch.py lines 321-335): iterates the simulation_paths
dict in insertion order and loads each entry's path directly, without
joining the batch path, so relative stored paths are resolved against
the current working directory. -/
def Batch.apply {α : Type} (fs : FileSystem) (cwd : List String) (b : Batch)
    (func : ConditionSimulation → α) : Except PyError (List (Int × α)) :=
  mapE
    (fun ip =>
      match fs.loadSim (pyResolve cwd ip.2) with
      | .error e => .error e
      | .ok sim => .ok (ip.1, func sim))
    b.simulation_paths

/-- The simulation_paths dict of a batch built over n parameter sets. -/
def wellBuiltPaths (n : Nat) : List (Int × List String) :=
  (List.range n).map (fun (i : Nat) => ((i : Int), ["simulations", toString i]))

/-- On-disk text files (path-list files and the batch index), keyed by
resolved path. -/
structure TextFS where
  files : List (List String × List String)
  deriving DecidableEq, Repr

/-- An open Python file handle: its target path, whether it was opened
for writing, and the lines written so far. -/
structure PyHandle where
  target : List String
  writable : Bool
  written : List String
  deriving DecidableEq, Repr

/-- open(path) with the mode argument omitted: Python defaults to read
mode, so a missing file raises FileNotFoundError. -/
def pyOpenDefault (tfs : TextFS) (p : List String) : Except PyError PyHandle :=
  match lookupBy tfs.files p with
  | some _ => .ok ⟨p, false, []⟩
  | none => .error .fileNotFoundError

/-- open(path, 'w'): creates a writable handle. -/
def pyOpenWrite (p : List String) : PyHandle := ⟨p, true, []⟩

/-- file.write on a handle: writing to a handle opened in read mode
raises io.UnsupportedOperation. -/
def PyHandle.writeLine (h : PyHandle) (s : String) : Except PyError PyHandle :=
  if h.writable then .ok { h with written := h.written ++ [s] }
  else .error .unsupportedOperation

/-- Loop state of Batch.build_path_files: the index-file handle, the
currently open chunk file (if any), and the chunk files closed so far. -/
structure ChunkState where
  indexHandle : PyHandle
  current : Option PyHandle
  closedFiles : List PyHandle
  deriving DecidableEq, Repr

/-- One iteration of the loop in Batch.build_path_files (batch.py lines
176-192): at the start of a chunk a new chunk file is opened for writing
and its path appended to the index file; the simulation path is then
written to the open chunk file; the chunk file is closed only when
i mod batch_size equals batch_size - 1.  Python floor division and
modulus are Int.fdiv and Int.emod. -/
def chunkStep (batchesDir : List String) (bs : Int) (st : ChunkState)
    (item : Int × List String) : Except PyError ChunkState :=
  let i := item.1
  let batchId := Int.fdiv i bs
  let afterOpen : Except PyError ChunkState :=
    if Int.emod i bs = 0 then
      let batchDir := pyJoin batchesDir [toString batchId ++ ".txt"]
      match st.indexHandle.writeLine (renderPath batchDir) with
      | .error e => .error e
      | .ok ih => .ok { st with indexHandle := ih, current := some (pyOpenWrite batchDir) }
    else .ok st
  match afterOpen with
  | .error e => .error e
  | .ok st1 =>
    match st1.current with
    | none => .error .nameError
    | some bf =>
      match bf.writeLine (renderPath item.2) with
      | .error e => .error e
      | .ok bf1 =>
        if Int.emod i bs = bs - 1 then
          .ok { st1 with current := none, closedFiles := st1.closedFiles ++ [bf1] }
        else .ok { st1 with current := some bf1 }

/-- Batch.build_path_files (batch.py lines 159-194): the index file is
opened via open(join(batches_dir, 'index.txt', 'w')) - the mode string
is joined into the path as a component and the mode argument is omitted,
so the open defaults to read mode - and the loop then writes one
path-list file per chunk of batch_size simulation paths. -/
def Batch.build_path_files (tfs : TextFS) (b : Batch) (batch_size : Int) :
    Except PyError ChunkState :=
  let batchesDir := pyJoin b.path ["batches"]
  match pyOpenDefault tfs (pyJoin (pyJoin batchesDir ["index.txt"]) ["w"]) with
  | .error e => .error e
  | .ok ih => foldE (chunkStep batchesDir batch_size) ⟨ih, none, []⟩ b.simulation_paths

/-- The Sweep object state relevant to the claims (sweep.py): the
inherited Batch fields, the sampled parameters, and the results and
completed attributes rebuilt by aggregate. -/
structure Sweep where
  path : List String
  parameters : List ParamSet
  simulation_paths : List (Int × List String)
  results : Option (List (List ((String × String) × Option MetricValue)))
  completed : Option (List Bool)
  deriving DecidableEq, Repr

/-- The Batch view of a Sweep used by the inherited iteration methods. -/
def Sweep.toBatch (s : Sweep) : Batch := ⟨s.path, s.simulation_paths⟩

/-- One step of the iteration `for sim in self` inside aggregate:
load_simulation(count) followed by parse_simulation with its default
index -3 (batch.py lines 48-60, sweep.py line 161). -/
def parseIndexed (fs : FileSystem) (cwd : List String) (s : Sweep) (i : Nat) :
    Except PyError ParseResult :=
  match Batch.load_simulation fs cwd s.toBatch (i : Int) with
  | .error e => .error e
  | .ok sim => Sweep.parse_simulation sim (-3)

/-- The list comprehension `[self.parse_simulation(sim) for sim in self]`
(sweep.py line 161): iteration runs over counts 0 to
len(simulation_paths) - 1 in ascending order. -/
def parseAll (fs : FileSystem) (cwd : List String) (s : Sweep) :
    Except PyError (List ParseResult) :=
  mapE (parseIndexed fs cwd s) (List.range s.simulation_paths.length)

/-- Sweep.aggregate (sweep.py lines 155-170): full recompute.  The
completed vector holds `x != False` per parse result, indexed by
arange(N) with N = len(parameters) (a length mismatch raises ValueError
in the DataFrame constructor); the results table keeps only the
non-sentinel records in iteration order, and
pd.MultiIndex.from_tuples on an empty column set raises TypeError. -/
def Sweep.aggregate (fs : FileSystem) (cwd : List String) (s : Sweep) :
    Except PyError Sweep :=
  match parseAll fs cwd s with
  | .error e => .error e
  | .ok rs =>
    if s.parameters.length = rs.length then
      if (((rs.filter (fun r => decide (r ≠ ParseResult.falseSentinel))).map
            ParseResult.entriesOf).map (fun row => row.map Prod.fst)).flatten.isEmpty then
        .error .typeError
      else
        .ok { s with
          completed := some (rs.map (fun r => decide (r ≠ ParseResult.falseSentinel)))
          results := some ((rs.filter (fun r => decide (r ≠ ParseResult.falseSentinel))).map
            ParseResult.entriesOf) }
    else .error .valueError

/-- Success and failure flags for the four effectful stages of the run
script: loading the simulation, simulate, compare, and save. -/
structure RunEnv where
  loadOk : Bool
  simulateOk : Bool
  compareOk : Bool
  saveOk : Bool
  deriving DecidableEq, Repr

/-- argparse add_argument: supplying the `required` keyword for a
positional argument raises TypeError. -/
def addArgument (positional : Bool) (requiredKw : Option Bool) : Except PyError Unit :=
  if positional ∧ requiredKw.isSome then .error .typeError else .ok ()

/-- The run script sweep/run.py, top to bottom: four add_argument calls
(the first declares the positional `path` with required=True), then
load, simulate, compare, and `simulation.save(path, ...)` - the name
`path` is never defined in the script, so a NameError is raised at the
save line even when every stage succeeds. -/
def runScript (env : RunEnv) : Except PyError Unit :=
  match addArgument true (some true) with
  | .error e => .error e
  | .ok _ =>
    match addArgument false none, addArgument false none, addArgument false none with
    | .ok _, .ok _, .ok _ =>
      if env.loadOk then
        if env.simulateOk then
          if env.compareOk then .error .nameError
          else .error .valueError
        else .error .valueError
      else .error .fileNotFoundError
    | _, _, _ => .error .typeError

/-- Process exit status: 0 when the script runs to completion, 1 when an
unhandled exception terminates it. -/
def pyExitCode : Except PyError Unit → Nat
  | .ok _ => 0
  | .error _ => 1

/-! Concrete fixtures used by witnesses and counterexamples. -/

/-- Fixture for the C3 witness: one reached simple comparison and one
MultiComparison whose thresholds all failed. -/
def simMixed : ConditionSimulation :=
  ⟨some [("normal", .simple true 1 2 3 4 5 6),
         ("diabetic", .multi [false] [] [] [] [] [] [])]⟩

/-- The record simMixed parses to. -/
def recMixed : ParseResult :=
  .record (sixRecord "normal" (.scalar 1) (.scalar 2) (.scalar 3)
      (.scalar 4) (.scalar 5) (.scalar 6)
    ++ failEntries "diabetic")

/-- Fixture for C4: one MultiComparison with three thresholds that
reached comparison; its per-threshold metric vectors are
[10,20,30], [11,21,31], ..., [15,25,35]. -/
def simMulti : ConditionSimulation :=
  ⟨some [("normal",
      .multi [true] [10, 20, 30] [11, 21, 31] [12, 22, 32]
        [13, 23, 33] [14, 24, 34] [15, 25, 35])]⟩

/-- Fixture filesystem for C5 and C9: simulation 0 never reached the
comparison stage (comparisons is None), simulation 1 has one reached
simple comparison. -/
def fsTwo : FileSystem :=
  ⟨[(["", "b", "simulations", "0"], ⟨none⟩),
    (["", "b", "simulations", "1"], ⟨some [("normal", .simple true 1 2 3 4 5 6)]⟩)]⟩

/-- Fixture sweep over two samples stored under the batch root ["","b"]. -/
def sweepTwo : Sweep := ⟨["", "b"], [[0], [0]], wellBuiltPaths 2, none, none⟩

/-- The results row contributed by simulation 1 of fsTwo. -/
def rowNormal : List ((String × String) × Option MetricValue) :=
  sixRecord "normal" (.scalar 1) (.scalar 2) (.scalar 3) (.scalar 4) (.scalar 5) (.scalar 6)

/-- sweepTwo after aggregation over fsTwo. -/
def sweepTwoAgg : Sweep :=
  { sweepTwo with completed := some [false, true], results := some [rowNormal] }

/-- Fixture filesystem for C10: simulation 0 has a present but empty
comparisons dict, simulation 1 has one reached simple comparison. -/
def fsEmptyDict : FileSystem :=
  ⟨[(["", "b", "simulations", "0"], ⟨some []⟩),
    (["", "b", "simulations", "1"], ⟨some [("normal", .simple true 1 2 3 4 5 6)]⟩)]⟩

/-- Fixture sweep for C10. -/
def sweepED : Sweep := ⟨["", "b"], [[0], [0]], wellBuiltPaths 2, none, none⟩

/-- sweepED after aggregation over fsEmptyDict: both samples complete,
sample 0 contributing an empty row. -/
def sweepEDAgg : Sweep :=
  { sweepED with completed := some [true, true], results := some [[], rowNormal] }

/-- Fixture for C7: a single stored simulation under batch root ["","b"]. -/
def fsOne : FileSystem := ⟨[(["", "b", "simulations", "0"], ⟨none⟩)]⟩

/-- Fixture batch for C7. -/
def batchOne : Batch := ⟨["", "b"], wellBuiltPaths 1⟩

/-- Ten parameter sets, as in the spec scenario with num_samples = 10. -/
def paramsTen : List ParamSet := List.replicate 10 [0]

/-! Helper lemmas about the effect combinators. -/

theorem foldl_append_singleton {α β : Type} (g : α → β) :
    ∀ (l : List α) (init : List β),
      l.foldl (fun acc a => acc ++ [g a]) init = init ++ l.map g
  | [], init => by simp
  | a :: l, init => by
    simp only [List.foldl_cons, List.map_cons]
    rw [foldl_append_singleton g l (init ++ [g a])]
    simp

theorem pyRelpath_append (base rest : List String) :
    pyRelpath (base ++ rest) base = rest := by
  simp [pyRelpath, List.take_left, List.drop_left]

theorem mapE_cons_ok {α β : Type} {f : α → Except PyError β} {a : α} {l : List α}
    {ys : List β} (h : mapE f (a :: l) = .ok ys) :
    ∃ b bs, f a = .ok b ∧ mapE f l = .ok bs ∧ ys = b :: bs := by
  unfold mapE at h
  split at h
  · exact absurd h (by simp)
  next b hfa =>
    split at h
    · exact absurd h (by simp)
    next bs hml =>
      injection h with h'
      exact ⟨b, bs, hfa, hml, h'.symm⟩

theorem mapE_ok_length {α β : Type} {f : α → Except PyError β} :
    ∀ {l : List α} {ys : List β}, mapE f l = .ok ys → ys.length = l.length := by
  intro l
  induction l with
  | nil => intro ys h; unfold mapE at h; injection h with h'; simp [← h']
  | cons a l ih =>
    intro ys h
    obtain ⟨b, bs, _, hml, rfl⟩ := mapE_cons_ok h
    simp [ih hml]

theorem mapE_ok_get {α β : Type} {f : α → Except PyError β} :
    ∀ {l : List α} {ys : List β}, mapE f l = .ok ys →
      ∀ i (h1 : i < l.length) (h2 : i < ys.length),
        f (l.get ⟨i, h1⟩) = .ok (ys.get ⟨i, h2⟩) := by
  intro l
  induction l with
  | nil => intro ys h i h1; simp at h1
  | cons a l ih =>
    intro ys h i h1 h2
    obtain ⟨b, bs, hfa, hml, rfl⟩ := mapE_cons_ok h
    cases i with
    | zero => simpa using hfa
    | succ j =>
      simpa using ih hml j (by simpa using h1) (by simpa using h2)

theorem mapE_mem_ok {α β : Type} {f : α → Except PyError β} :
    ∀ {l : List α} {ys : List β}, mapE f l = .ok ys →
      ∀ {a : α}, a ∈ l → ∃ b, b ∈ ys ∧ f a = .ok b := by
  intro l
  induction l with
  | nil => intro ys h a ha; simp at ha
  | cons x l ih =>
    intro ys h a ha
    obtain ⟨b, bs, hfa, hml, rfl⟩ := mapE_cons_ok h
    rcases List.mem_cons.mp ha with rfl | hm
    · exact ⟨b, List.mem_cons_self _ _, hfa⟩
    · obtain ⟨b', hb', hfb'⟩ := ih hml hm
      exact ⟨b', List.mem_cons_of_mem _ hb', hfb'⟩

theorem mapE_ok_of_forall {α β : Type} {f : α → Except PyError β} {g : α → β} :
    ∀ {l : List α}, (∀ a ∈ l, f a = .ok (g a)) → mapE f l = .ok (l.map g) := by
  intro l
  induction l with
  | nil => intro _; rfl
  | cons a l ih =>
    intro hall
    have ha := hall a (List.mem_cons_self _ _)
    have hrest := ih (fun x hx => hall x (List.mem_cons_of_mem _ hx))
    simp [mapE, ha, hrest]

theorem mapE_map {α β γ : Type} (f : β → Except PyError γ) (g : α → β) :
    ∀ (l : List α), mapE f (l.map g) = mapE (fun a => f (g a)) l
  | [] => rfl
  | a :: l => by
    simp only [List.map_cons]
    unfold mapE
    rw [mapE_map f g l]

theorem lookupBy_append {κ α : Type} [DecidableEq κ] (l1 l2 : List (κ × α)) (k : κ) :
    lookupBy (l1 ++ l2) k =
      match lookupBy l1 k with
      | some v => some v
      | none => lookupBy l2 k := by
  induction l1 with
  | nil => simp [lookupBy]
  | cons p l1 ih =>
    obtain ⟨k', v⟩ := p
    by_cases hk : k = k' <;> simp [lookupBy, hk, ih]

theorem lookupBy_wellBuiltPaths (n : Nat) (k : Int) :
    lookupBy (wellBuiltPaths n) k =
      if 0 ≤ k ∧ k < (n : Int) then some ["simulations", toString k.toNat] else none := by
  induction n with
  | zero =>
    rw [if_neg (by omega)]
    rfl
  | succ n ih =>
    rw [show wellBuiltPaths (n + 1)
          = wellBuiltPaths n ++ [((n : Int), ["simulations", toString n])] by
        simp [wellBuiltPaths, List.range_succ]]
    rw [lookupBy_append, ih]
    by_cases h1 : 0 ≤ k ∧ k < (n : Int)
    · rw [if_pos h1, if_pos (by omega)]
    · rw [if_neg h1]
      simp only [lookupBy]
      by_cases h2 : k = (n : Int)
      · rw [if_pos h2, if_pos (by omega)]
        have h3 : k.toNat = n := by omega
        rw [h3]
      · rw [if_neg h2, if_neg (by omega)]

theorem filter_eq_map_range {α : Type} (d : α) :
    ∀ (l : List α) (p : α → Bool),
      l.filter p
        = ((List.range l.length).filter (fun i => p (l.getD i d))).map (fun i => l.getD i d) := by
  intro l
  induction l with
  | nil => intro p; rfl
  | cons a l ih =>
    intro p
    have hq : ((fun i => p ((a :: l).getD i d)) ∘ Nat.succ) = fun i => p (l.getD i d) := by
      funext i
      simp
    have hg : ((fun i => (a :: l).getD i d) ∘ Nat.succ) = fun i => l.getD i d := by
      funext i
      simp
    rw [List.length_cons, List.range_succ_eq_map, List.filter_cons, List.filter_cons,
      List.getD_cons_zero, List.filter_map, hq]
    cases hpa : p a
    · rw [if_neg (by simp [hpa]), if_neg (by simp [hpa]), List.map_map, hg]
      exact ih p
    · rw [if_pos (by simp [hpa]), if_pos (by simp [hpa])]
      simp only [List.map_cons, List.map_map, hg, List.getD_cons_zero]
      rw [ih p]

theorem count_true_map_decide {α : Type} (P : α → Prop) [DecidablePred P] :
    ∀ l : List α,
      ((l.map (fun a => decide (P a))).count true)
        = (l.filter (fun a => decide (P a))).length := by
  intro l
  induction l with
  | nil => rfl
  | cons a l ih =>
    by_cases hpa : P a <;> simp [List.count_cons, List.filter_cons, hpa, ih]

/-! Helper lemmas about parseOne and parse_simulation. -/

theorem parseOne_ok_keys {index : Int} {c : String} {cmp : Comparison}
    {es : List ((String × String) × Option MetricValue)}
    (h : parseOne index c cmp = .ok es) : es.map Prod.fst = sixKeys c := by
  cases cmp with
  | multi r ab be er a2 b2 e2 =>
    simp only [parseOne] at h
    split at h
    · repeat' split at h
      all_goals try exact Except.noConfusion h
      all_goals injection h with h'
      all_goals subst h'
      all_goals rfl
    · injection h with h'
      subst h'
      rfl
  | simple r a b e a2 b2 e2 =>
    simp only [parseOne] at h
    split at h
    · injection h with h'
      subst h'
      rfl
    · injection h with h'
      subst h'
      rfl

theorem parseOne_not_reached {index : Int} {c : String} {cmp : Comparison}
    (h : cmp.reached = false) : parseOne index c cmp = .ok (failEntries c) := by
  cases cmp with
  | multi r ab be er a2 b2 e2 =>
    simp only [Comparison.reached] at h
    simp only [parseOne]
    rw [if_neg (by rw [h]; simp)]
  | simple r a b e a2 b2 e2 =>
    simp only [Comparison.reached] at h
    simp only [parseOne]
    rw [if_neg (by rw [h]; simp)]

theorem mapE_parseOne_keys (index : Int) :
    ∀ (comps : List (String × Comparison))
      (ls : List (List ((String × String) × Option MetricValue))),
      mapE (fun p => parseOne index p.1 p.2) comps = .ok ls →
      ls.flatten.map Prod.fst = (comps.map (fun p => sixKeys p.1)).flatten := by
  intro comps
  induction comps with
  | nil =>
    intro ls h
    unfold mapE at h
    injection h with h'
    simp [← h']
  | cons p rest ih =>
    intro ls h
    obtain ⟨es, ls', hfa, hml, rfl⟩ := mapE_cons_ok h
    simp only [List.flatten_cons, List.map_cons, List.map_append]
    rw [parseOne_ok_keys hfa, ih ls' hml]

theorem mapE_parseOne_failed_mem (index : Int)
    (comps : List (String × Comparison))
    (ls : List (List ((String × String) × Option MetricValue)))
    (h : mapE (fun p => parseOne index p.1 p.2) comps = .ok ls) :
    ∀ p ∈ comps, p.2.reached = false →
      ∀ m ∈ metricNames, ((p.1, m), (none : Option MetricValue)) ∈ ls.flatten := by
  intro p hp hfail m hm
  obtain ⟨es, hes, hok⟩ := mapE_mem_ok h hp
  rw [parseOne_not_reached hfail] at hok
  injection hok with h'
  refine List.mem_flatten.mpr ⟨es, hes, ?_⟩
  rw [← h']
  exact List.mem_map.mpr ⟨m, hm, rfl⟩

/-! Claim theorems. -/

/-- C1: for every non-empty parameter sequence of length N, Batch.build
followed by Batch.load yields a Batch whose simulation_paths mapping has
exactly the integer keys 0 to N-1 (length N), recorded in ascending
index order with value the relative path 'simulations/<i>'. -/
theorem build_then_load_simulation_paths (params : List ParamSet) (_hp : params ≠ [])
    (dest loadPath : List String) :
    ((Batch.build params dest).load loadPath).simulation_paths
        = (List.range params.length).map
            (fun (i : Nat) => ((i : Int), ["simulations", toString i]))
      ∧ ((Batch.build params dest).load loadPath).simulation_paths.length
          = params.length := by
  have key : ((Batch.build params dest).load loadPath).simulation_paths
      = (List.range params.length).map
          (fun (i : Nat) => ((i : Int), ["simulations", toString i])) := by
    show (Batch.build params dest).simulation_paths = _
    unfold Batch.build
    rw [foldl_append_singleton, List.nil_append]
    have hfun :
        (fun (i : Nat) =>
            ((i : Int), pyRelpath (pyJoin (pyJoin dest ["simulations"]) [toString i]) dest))
          = fun (i : Nat) => ((i : Int), ["simulations", toString i]) := by
      funext i
      have : pyJoin (pyJoin dest ["simulations"]) [toString i]
          = dest ++ ["simulations", toString i] := by
        simp [pyJoin]
      rw [this, pyRelpath_append]
    rw [hfun]
  exact ⟨key, by rw [key]; simp⟩

/-- Witness for C1 at the concrete two-element parameter sequence
[[0], [1]]. -/
theorem build_then_load_simulation_paths_witness :
    ((Batch.build [[0], [1]] ["", "dest"]).load ["", "b"]).simulation_paths
        = (List.range ([[0], [1]] : List ParamSet).length).map
            (fun (i : Nat) => ((i : Int), ["simulations", toString i]))
      ∧ ((Batch.build [[0], [1]] ["", "dest"]).load ["", "b"]).simulation_paths.length
          = ([[0], [1]] : List ParamSet).length :=
  build_then_load_simulation_paths [[0], [1]] (by decide) ["", "dest"] ["", "b"]

/-- C2 counterexample: on a built batch with N = 1, load_simulation at
the out-of-range index 1 raises KeyError (the simulation_paths dict is
subscripted), which is a different exception than the IndexError the
claim names. -/
theorem load_simulation_key_error_counterexample :
    Batch.load_simulation ⟨[]⟩ ["", "b"] ⟨["", "b"], wellBuiltPaths 1⟩ 1
        = .error .keyError
      ∧ (Except.error PyError.keyError : Except PyError ConditionSimulation)
          ≠ .error .indexError := by
  constructor
  · rfl
  · decide

/-- C2 as amended: for every built Batch with N simulations, an index
outside 0 to N-1 makes load_simulation raise KeyError (not IndexError),
and an index inside the range resolves simulation_paths[index] relative
to the batch path and loads that simulation. -/
theorem load_simulation_bounds (fs : FileSystem) (cwd : List String) (b : Batch)
    (n : Nat) (hb : b.simulation_paths = wellBuiltPaths n) (index : Int) :
    ((index < 0 ∨ (n : Int) ≤ index) →
        Batch.load_simulation fs cwd b index = .error .keyError)
      ∧ (0 ≤ index → index < (n : Int) →
          Batch.load_simulation fs cwd b index
            = fs.loadSim (pyResolve cwd (pyJoin b.path ["simulations", toString index.toNat]))) := by
  unfold Batch.load_simulation
  rw [hb, lookupBy_wellBuiltPaths]
  constructor
  · intro h
    rw [if_neg (by omega)]
  · intro h1 h2
    rw [if_pos ⟨h1, h2⟩]

/-- Witness for C2's amended theorem: a built batch with N = 2, checked
at the out-of-range index 5 and (through the second conjunct) at
in-range indices. -/
theorem load_simulation_bounds_witness :
    (((5 : Int) < 0 ∨ (2 : Int) ≤ 5) →
        Batch.load_simulation ⟨[]⟩ ["", "b"] ⟨["", "b"], wellBuiltPaths 2⟩ 5
          = .error .keyError)
      ∧ ((0 : Int) ≤ 5 → (5 : Int) < 2 →
          Batch.load_simulation ⟨[]⟩ ["", "b"] ⟨["", "b"], wellBuiltPaths 2⟩ 5
            = FileSystem.loadSim ⟨[]⟩
                (pyResolve ["", "b"] (pyJoin ["", "b"] ["simulations", toString (5 : Int).toNat]))) :=
  load_simulation_bounds ⟨[]⟩ ["", "b"] ⟨["", "b"], wellBuiltPaths 2⟩ 2 rfl 5

/-- C3: parse_simulation returns the False sentinel exactly when the
simulation's comparisons attribute is None; otherwise it returns a
record in which every condition contributes exactly the six metric keys
above, below, error, above_threshold, below_threshold, threshold_error,
and every condition whose comparison did not reach a valid state has all
six of its metrics recorded as the missing-value marker None rather than
omitted. -/
theorem parse_simulation_shape (s : ConditionSimulation) (index : Int) (r : ParseResult)
    (h : Sweep.parse_simulation s index = .ok r) :
    (r = ParseResult.falseSentinel ↔ s.comparisons = none)
      ∧ ∀ comps entries, s.comparisons = some comps → r = ParseResult.record entries →
          (entries.map Prod.fst = (comps.map (fun p => sixKeys p.1)).flatten
            ∧ ∀ p ∈ comps, p.2.reached = false →
                ∀ m ∈ metricNames, ((p.1, m), (none : Option MetricValue)) ∈ entries) := by
  cases hc : s.comparisons with
  | none =>
    have hstep : Sweep.parse_simulation s index = .ok .falseSentinel := by
      unfold Sweep.parse_simulation
      rw [hc]
    rw [hstep] at h
    injection h with h'
    constructor
    · rw [← h']
      simp
    · intro comps entries hcomps
      cases hcomps
  | some comps =>
    have hstep : Sweep.parse_simulation s index
        = match mapE (fun p => parseOne index p.1 p.2) comps with
          | Except.error e => Except.error e
          | Except.ok ls => Except.ok (ParseResult.record ls.flatten) := by
      unfold Sweep.parse_simulation
      rw [hc]
    rw [hstep] at h
    split at h
    · cases h
    next ls hml =>
      injection h with h'
      constructor
      · rw [← h']
        simp
      · intro comps' entries hc' hr
        injection hc' with hc''
        subst hc''
        rw [← h'] at hr
        injection hr with hr'
        subst hr'
        exact ⟨mapE_parseOne_keys index comps ls hml,
          mapE_parseOne_failed_mem index comps ls hml⟩

/-- Witness for C3 at the concrete simulation simMixed. -/
theorem parse_simulation_shape_witness :
    (recMixed = ParseResult.falseSentinel ↔ simMixed.comparisons = none)
      ∧ ∀ comps entries, simMixed.comparisons = some comps →
          recMixed = ParseResult.record entries →
          (entries.map Prod.fst = (comps.map (fun p => sixKeys p.1)).flatten
            ∧ ∀ p ∈ comps, p.2.reached = false →
                ∀ m ∈ metricNames, ((p.1, m), (none : Option MetricValue)) ∈ entries) :=
  parse_simulation_shape simMixed (-3) recMixed (by decide)

/-- C4 counterexample: for a reached MultiComparison the record stores,
for each metric, the single scalar at Python index -3 of the
per-threshold vector (here 10 for `above`, whose vector is [10,20,30]),
not the vector itself, refuting the claim that composite comparisons
contribute vector-valued (one per threshold) metrics. -/
theorem parse_simulation_multi_scalar_counterexample :
    Sweep.parse_simulation simMulti (-3)
        = .ok (.record (sixRecord "normal" (.scalar 10) (.scalar 11) (.scalar 12)
            (.scalar 13) (.scalar 14) (.scalar 15)))
      ∧ lookupBy (sixRecord "normal" (.scalar 10) (.scalar 11) (.scalar 12)
            (.scalar 13) (.scalar 14) (.scalar 15)) ("normal", "above")
          = some (some (.scalar 10))
      ∧ some (MetricValue.scalar 10) ≠ some (MetricValue.vec [10, 20, 30]) := by
  refine ⟨by decide, by decide, by decide⟩

/-- C4 as amended: a composite (MultiComparison) condition that reached
comparison contributes, for each of the six metrics, the scalar element
at position `index` (default -3) of that metric's per-threshold vector,
while simple comparisons contribute their scalar metric values. -/
theorem parse_simulation_multi_indexed_scalar
    (s : ConditionSimulation) (comps : List (String × Comparison)) (index : Int)
    (c : String) (r : List Bool) (ab be er a2 b2 e2 : List Int)
    (va vb ve v2 v3 v4 : Int)
    (entries : List ((String × String) × Option MetricValue))
    (hc : s.comparisons = some comps)
    (hmem : (c, Comparison.multi r ab be er a2 b2 e2) ∈ comps)
    (hr : r.contains true = true)
    (h1 : pyGet ab index = .ok va) (h2 : pyGet be index = .ok vb)
    (h3 : pyGet er index = .ok ve) (h4 : pyGet a2 index = .ok v2)
    (h5 : pyGet b2 index = .ok v3) (h6 : pyGet e2 index = .ok v4)
    (hp : Sweep.parse_simulation s index = .ok (.record entries)) :
    (∀ kv ∈ sixRecord c (.scalar va) (.scalar vb) (.scalar ve)
        (.scalar v2) (.scalar v3) (.scalar v4), kv ∈ entries)
      ∧ ∀ (c' : String) (sa sb se s2 s3 s4 : Int),
          parseOne index c' (.simple true sa sb se s2 s3 s4)
            = .ok (sixRecord c' (.scalar sa) (.scalar sb) (.scalar se)
                (.scalar s2) (.scalar s3) (.scalar s4)) := by
  have hone : parseOne index c (Comparison.multi r ab be er a2 b2 e2)
      = .ok (sixRecord c (.scalar va) (.scalar vb) (.scalar ve)
          (.scalar v2) (.scalar v3) (.scalar v4)) := by
    simp only [parseOne]
    rw [if_pos hr, h1, h2, h3, h4, h5, h6]
  constructor
  · have hstep : Sweep.parse_simulation s index
        = match mapE (fun p => parseOne index p.1 p.2) comps with
          | Except.error e => Except.error e
          | Except.ok ls => Except.ok (ParseResult.record ls.flatten) := by
      unfold Sweep.parse_simulation
      rw [hc]
    rw [hstep] at hp
    split at hp
    · cases hp
    next ls hml =>
      injection hp with hp'
      injection hp' with hp''
      obtain ⟨es, hes, hok⟩ := mapE_mem_ok hml hmem
      rw [hone] at hok
      injection hok with hok'
      intro kv hkv
      rw [← hp'']
      exact List.mem_flatten.mpr ⟨es, hes, by rw [← hok']; exact hkv⟩
  · intro c' sa sb se s2 s3 s4
    simp [parseOne]

/-- Witness for C4's amended theorem at the concrete simulation
simMulti with index -3. -/
theorem parse_simulation_multi_indexed_scalar_witness :
    (∀ kv ∈ sixRecord "normal" (.scalar 10) (.scalar 11) (.scalar 12)
        (.scalar 13) (.scalar 14) (.scalar 15),
        kv ∈ sixRecord "normal" (.scalar 10) (.scalar 11) (.scalar 12)
          (.scalar 13) (.scalar 14) (.scalar 15))
      ∧ ∀ (c' : String) (sa sb se s2 s3 s4 : Int),
          parseOne (-3) c' (.simple true sa sb se s2 s3 s4)
            = .ok (sixRecord c' (.scalar sa) (.scalar sb) (.scalar se)
                (.scalar s2) (.scalar s3) (.scalar s4)) :=
  parse_simulation_multi_indexed_scalar simMulti
    [("normal",
       .multi [true] [10, 20, 30] [11, 21, 31] [12, 22, 32]
         [13, 23, 33] [14, 24, 34] [15, 25, 35])]
    (-3) "normal" [true] [10, 20, 30] [11, 21, 31] [12, 22, 32]
    [13, 23, 33] [14, 24, 34] [15, 25, 35]
    10 11 12 13 14 15
    (sixRecord "normal" (.scalar 10) (.scalar 11) (.scalar 12)
      (.scalar 13) (.scalar 14) (.scalar 15))
    rfl (by decide) (by decide)
    (by decide) (by decide) (by decide) (by decide) (by decide) (by decide)
    (by decide)

/-- C5: after a successful aggregate over a built Sweep with N samples,
completed has length N with completed[i] true exactly when the parse of
simulation i did not return the False sentinel; results holds one row
per completed index and none for an incomplete index, ordered by
ascending contributing index, so the number of true entries in completed
equals the number of rows. -/
theorem aggregate_completed_partition (fs : FileSystem) (cwd : List String) (s t : Sweep)
    (h : Sweep.aggregate fs cwd s = .ok t) :
    ∃ rs cs rows,
      parseAll fs cwd s = .ok rs
        ∧ t.completed = some cs
        ∧ t.results = some rows
        ∧ cs.length = s.parameters.length
        ∧ cs.length = rs.length
        ∧ (∀ i : Nat, cs.getD i false = true
              ↔ (i < rs.length ∧ rs.getD i .falseSentinel ≠ .falseSentinel))
        ∧ rows = ((List.range rs.length).filter
                    (fun i => decide (rs.getD i ParseResult.falseSentinel
                      ≠ ParseResult.falseSentinel))).map
                   (fun i => (rs.getD i ParseResult.falseSentinel).entriesOf)
        ∧ rows.length = cs.count true := by
  unfold Sweep.aggregate at h
  split at h
  · cases h
  next rs hrs =>
    split at h
    next hlen =>
      split at h
      · cases h
      next hcols =>
        injection h with h'
        subst h'
        have hgd : ∀ i : Nat,
            ((rs.map (fun r => decide (r ≠ ParseResult.falseSentinel))).getD i false)
              = decide (rs.getD i ParseResult.falseSentinel ≠ ParseResult.falseSentinel) := by
          intro i
          have hbase := List.getD_map rs ParseResult.falseSentinel
            (n := i) (fun r => decide (r ≠ ParseResult.falseSentinel))
          simpa using hbase
        refine ⟨rs, _, _, hrs, rfl, rfl, by simp [← hlen], by simp, ?_, ?_, ?_⟩
        · intro i
          rw [hgd i]
          by_cases hi : i < rs.length
          · simp [hi]
          · rw [List.getD_eq_default _ _ (by omega)]
            simp [hi]
        · rw [filter_eq_map_range ParseResult.falseSentinel rs
            (fun r => decide (r ≠ ParseResult.falseSentinel)), List.map_map]
          rfl
        · rw [List.length_map,
            count_true_map_decide (fun r => r ≠ ParseResult.falseSentinel) rs]
    next hlen => cases h

/-- Witness for C5 at the concrete sweep sweepTwo over fsTwo, where
sample 0 is incomplete and sample 1 is complete. -/
theorem aggregate_completed_partition_witness :
    ∃ rs cs rows,
      parseAll fsTwo ["", "b"] sweepTwo = .ok rs
        ∧ sweepTwoAgg.completed = some cs
        ∧ sweepTwoAgg.results = some rows
        ∧ cs.length = sweepTwo.parameters.length
        ∧ cs.length = rs.length
        ∧ (∀ i : Nat, cs.getD i false = true
              ↔ (i < rs.length ∧ rs.getD i .falseSentinel ≠ .falseSentinel))
        ∧ rows = ((List.range rs.length).filter
                    (fun i => decide (rs.getD i ParseResult.falseSentinel
                      ≠ ParseResult.falseSentinel))).map
                   (fun i => (rs.getD i ParseResult.falseSentinel).entriesOf)
        ∧ rows.length = cs.count true :=
  aggregate_completed_partition fsTwo ["", "b"] sweepTwo sweepTwoAgg (by decide)

/-- C6: evaluation at the spec scenario (N = 10, batch_size = 25), on a
freshly built batch whose batches directory holds no files yet.
build_path_files opens join(batches_dir, 'index.txt', 'w') - the mode
string joined in as a path component, the mode argument omitted - so the
open defaults to read mode and raises FileNotFoundError before writing
any chunk file or index entry, contradicting the claim that
ceil(N/batch_size) chunk files are written, listed in batches/index.txt,
and correctly closed. -/
theorem build_path_files_crashes_on_fresh_batch :
    Batch.build_path_files ⟨[]⟩ (Batch.build paramsTen ["", "batch"]) 25
      = .error .fileNotFoundError := by
  rfl

/-- C7 counterexample: a batch loaded at the absolute root ["","b"] with
its simulation stored on disk; with the working directory elsewhere,
apply resolves the stored relative path against the working directory
and raises FileNotFoundError instead of returning the dense mapping,
even though load_simulation finds the same simulation. -/
theorem apply_misses_stored_simulations :
    Batch.apply fsOne ["", "other"] batchOne (fun sim => sim)
        = .error .fileNotFoundError
      ∧ Batch.load_simulation fsOne ["", "other"] batchOne 0 = .ok ⟨none⟩ := by
  constructor
  · rfl
  · rfl

/-- C7 as amended: apply resolves each stored relative path against the
process working directory rather than the batch path; when the working
directory is the batch root, apply loads every one of the N stored
simulations in ascending index order, applies the caller-supplied
function, and returns a dense mapping with an entry for all N indices,
with no filtering on completion state. -/
theorem apply_dense_from_batch_root {α : Type} (fs : FileSystem) (b : Batch) (n : Nat)
    (func : ConditionSimulation → α) (g : Nat → ConditionSimulation)
    (hb : b.simulation_paths = wellBuiltPaths n)
    (hload : ∀ i, i < n →
        fs.loadSim (pyJoin b.path ["simulations", toString i]) = .ok (g i)) :
    Batch.apply fs b.path b func
      = .ok ((List.range n).map (fun (i : Nat) => ((i : Int), func (g i)))) := by
  unfold Batch.apply
  rw [hb]
  unfold wellBuiltPaths
  rw [mapE_map]
  apply mapE_ok_of_forall
  intro i hi
  have hres : pyResolve b.path ["simulations", toString i]
      = pyJoin b.path ["simulations", toString i] := by
    rw [pyResolve, if_neg (by simp), pyJoin]
  rw [hres, hload i (List.mem_range.mp hi)]

/-- Witness for C7's amended theorem: batchOne over fsOne with the
working directory at the batch root. -/
theorem apply_dense_from_batch_root_witness :
    Batch.apply fsOne batchOne.path batchOne (fun sim => sim)
      = .ok ((List.range 1).map (fun (i : Nat) => ((i : Int), (⟨none⟩ : ConditionSimulation)))) :=
  apply_dense_from_batch_root fsOne batchOne 1 (fun sim => sim)
    (fun _ => ⟨none⟩) rfl (by decide)

/-- C8: evaluation of the run script at a fully successful environment
(load, simulate, compare, and save would all succeed): argparse rejects
required=True on the positional path argument with TypeError, so the
script terminates with a non-zero exit status even on success,
contradicting the claim that it exits 0 when everything succeeds (and
were parsing fixed, the save line references the undefined name `path`
and would raise NameError). -/
theorem run_script_never_exits_zero :
    runScript ⟨true, true, true, true⟩ = .error .typeError
      ∧ pyExitCode (runScript ⟨true, true, true, true⟩) = 1 := by
  constructor
  · rfl
  · rfl

/-- C9: aggregation is a full deterministic recompute of the stored
simulations: running aggregate again on the sweep object produced by a
successful aggregate - with the on-disk simulations unchanged - yields
exactly the same results and completed structures (the same Sweep). -/
theorem aggregate_idempotent (fs : FileSystem) (cwd : List String) (s t : Sweep)
    (h : Sweep.aggregate fs cwd s = .ok t) :
    Sweep.aggregate fs cwd t = .ok t := by
  obtain ⟨p, par, sp, res, comp⟩ := s
  unfold Sweep.aggregate at h
  split at h
  · cases h
  next rs hrs =>
    split at h
    next hlen =>
      split at h
      · cases h
      next hcols =>
        injection h with h'
        subst h'
        have hrs2 : parseAll fs cwd
            (⟨p, par, sp,
              some (List.map ParseResult.entriesOf
                (List.filter (fun r => decide (r ≠ ParseResult.falseSentinel)) rs)),
              some (List.map (fun r => decide (r ≠ ParseResult.falseSentinel)) rs)⟩ : Sweep)
            = Except.ok rs := hrs
        simp only [Sweep.aggregate, hrs2]
        simp only at hlen hcols
        rw [if_pos hlen, if_neg hcols]
    next hlen => cases h

/-- Witness for C9 at the concrete sweep sweepTwo over fsTwo. -/
theorem aggregate_idempotent_witness :
    Sweep.aggregate fsTwo ["", "b"] sweepTwoAgg = .ok sweepTwoAgg :=
  aggregate_idempotent fsTwo ["", "b"] sweepTwo sweepTwoAgg (by decide)

/-- C10: a simulation whose comparisons attribute is present but an
empty dict parses to an empty record, not the False sentinel, so
aggregate marks that sample as completed and it contributes a row with
no metric columns to results. -/
theorem empty_comparisons_marks_completed (fs : FileSystem) (cwd : List String)
    (s t : Sweep) (i : Nat)
    (hi : i < s.simulation_paths.length)
    (hload : Batch.load_simulation fs cwd s.toBatch (i : Int) = .ok ⟨some []⟩)
    (h : Sweep.aggregate fs cwd s = .ok t) :
    Sweep.parse_simulation ⟨some []⟩ (-3) = .ok (.record [])
      ∧ ParseResult.record [] ≠ ParseResult.falseSentinel
      ∧ ∃ cs rows, t.completed = some cs ∧ t.results = some rows
          ∧ cs.getD i false = true ∧ [] ∈ rows := by
  refine ⟨rfl, by simp, ?_⟩
  unfold Sweep.aggregate at h
  split at h
  · cases h
  next rs hrs =>
    split at h
    next hlen =>
      split at h
      · cases h
      next hcols =>
        injection h with h'
        subst h'
        have hrslen : rs.length = s.simulation_paths.length := by
          have := mapE_ok_length hrs
          simpa using this
        have hil : i < rs.length := by omega
        have hget := mapE_ok_get hrs i (by simpa using hi) hil
        simp only [List.get_eq_getElem, List.getElem_range] at hget
        have hval2 : (Except.ok (ParseResult.record []) : Except PyError ParseResult)
            = Except.ok (rs.get ⟨i, hil⟩) := by
          have hpi : parseIndexed fs cwd s i = Except.ok (rs.get ⟨i, hil⟩) := by
            simpa [List.get_eq_getElem] using hget
          rw [← hpi]
          unfold parseIndexed
          rw [hload]
          rfl
        have hrec : rs.get ⟨i, hil⟩ = ParseResult.record [] := by
          injection hval2 with hv
          exact hv.symm
        have hgd0 : rs.getD i ParseResult.falseSentinel = ParseResult.record [] := by
          rw [List.getD_eq_getElem?_getD, List.getElem?_eq_getElem hil]
          simp only [Option.getD_some]
          rw [← List.get_eq_getElem rs ⟨i, hil⟩]
          exact hrec
        refine ⟨_, _, rfl, rfl, ?_, ?_⟩
        · have hbase := List.getD_map rs ParseResult.falseSentinel
            (n := i) (fun r => decide (r ≠ ParseResult.falseSentinel))
          have hbase2 :
              ((rs.map (fun r => decide (r ≠ ParseResult.falseSentinel))).getD i false)
                = decide (rs.getD i ParseResult.falseSentinel ≠ ParseResult.falseSentinel) := by
            simpa using hbase
          rw [hbase2, hgd0]
          simp
        · have hmemrs : ParseResult.record [] ∈ rs := by
            rw [← hrec]
            exact List.get_mem rs i hil
          have hmemf : ParseResult.record []
              ∈ rs.filter (fun r => decide (r ≠ ParseResult.falseSentinel)) := by
            rw [List.mem_filter]
            exact ⟨hmemrs, by simp⟩
          exact List.mem_map.mpr ⟨ParseResult.record [], hmemf, rfl⟩
    next hlen => cases h

/-- Witness for C10 at index 0 of the concrete sweep sweepED over
fsEmptyDict. -/
theorem empty_comparisons_marks_completed_witness :
    Sweep.parse_simulation ⟨some []⟩ (-3) = .ok (.record [])
      ∧ ParseResult.record [] ≠ ParseResult.falseSentinel
      ∧ ∃ cs rows, sweepEDAgg.completed = some cs ∧ sweepEDAgg.results = some rows
          ∧ cs.getD 0 false = true ∧ [] ∈ rows :=
  empty_comparisons_marks_completed fsEmptyDict ["", "b"] sweepED sweepEDAgg 0
    (by decide) (by decide) (by decide)

end GramSpec
